import Mathlib

set_option maxRecDepth 8000

/-!
Verification of the troskovnik ingestion core (src/app.py) against its
natural-language specification. The Python core is shallowly embedded:
strings are Lean strings, pandas cells are strings, a raised exception is
an Except error, numeric cells are Option of a parsed decimal numeral.
-/

namespace CentralnaBaza

/-! String primitives mirroring the Python methods used by the core. -/

/-- Whitespace test used by Python str.strip and the regex class \s
    (restricted to the ASCII whitespace the repository data uses). -/
def isWs (c : Char) : Bool :=
  c == ' ' || c == '\t' || c == '\n' || c == '\r' || c == '\x0b' || c == '\x0c'

def stripChars (l : List Char) : List Char :=
  ((l.dropWhile isWs).reverse.dropWhile isWs).reverse

/-- Model of Python str.strip. -/
def strip (s : String) : String := ⟨stripChars s.data⟩

/-- Model of Python str.lower on the alphabet the repository uses:
    ASCII letters plus the Croatian letters appearing in the labels. -/
def lowerChar (c : Char) : Char :=
  if 'A' ≤ c && c ≤ 'Z' then Char.ofNat (c.toNat + 32)
  else if c == 'Č' then 'č'
  else if c == 'Ć' then 'ć'
  else if c == 'Đ' then 'đ'
  else if c == 'Š' then 'š'
  else if c == 'Ž' then 'ž'
  else c

def lowerStr (s : String) : String := ⟨s.data.map lowerChar⟩

/-- leadSeg p s: p is a leading segment of s (Python str.startswith). -/
def leadSeg : List Char → List Char → Bool
  | [], _ => true
  | _ :: _, [] => false
  | a :: as, b :: bs => a == b && leadSeg as bs

/-- trailSeg p s: p is a trailing segment of s (Python str.endswith). -/
def trailSeg (p s : List Char) : Bool := leadSeg p.reverse s.reverse

/-- midSeg p s: p occurs contiguously inside s (Python "p in s"). -/
def midSeg (p : List Char) : List Char → Bool
  | [] => p.isEmpty
  | c :: cs => leadSeg p (c :: cs) || midSeg p cs

/-! Filename date inference: embedding of guess_date_from_filename
    (src/app.py lines 36-51). Each of the three regex families is a
    hand-compiled matcher with the exact search-and-backtrack semantics
    of re.search on these patterns. -/

/-- Numeric value of a decimal digit character. -/
def dv (c : Char) : Nat := c.toNat - 48

/-- The regex class [-_.] of pattern family 1. -/
def sepChar (c : Char) : Bool := c == '-' || c == '_' || c == '.'

/-- The literal dot of pattern family 2. -/
def dotChar (c : Char) : Bool := c == '.'

/-- Match a greedy one-or-two digit group followed by one separator,
    returning the group value and the text after the separator. A two
    digit group is preferred; backtracking to one digit only succeeds if
    the second character is a separator, which a digit never is. -/
def numThenSep (sepOk : Char → Bool) : List Char → Option (Nat × List Char)
  | a :: b :: rest =>
    if a.isDigit then
      if b.isDigit then
        match rest with
        | s :: tail => if sepOk s then some (10 * dv a + dv b, tail) else none
        | [] => none
      else if sepOk b then some (dv a, rest) else none
    else none
  | _ => none

/-- Match the final greedy one-or-two digit group of family 1. -/
def endDay : List Char → Option Nat
  | c1 :: c2 :: _ =>
    if c1.isDigit then some (if c2.isDigit then 10 * dv c1 + dv c2 else dv c1) else none
  | [c1] => if c1.isDigit then some (dv c1) else none
  | [] => none

/-- Family 1 anchored at the current position:
    (20dd)[-_.](d{1,2})[-_.](d{1,2}). -/
def matchFam1At : List Char → Option (Nat × Nat × Nat)
  | '2' :: '0' :: c1 :: c2 :: s :: rest =>
    if c1.isDigit && c2.isDigit && sepChar s then
      match numThenSep sepChar rest with
      | some (mo, tail) =>
        match endDay tail with
        | some d => some (2000 + 10 * dv c1 + dv c2, mo, d)
        | none => none
      | none => none
    else none
  | _ => none

/-- Family 2 anchored at the current position:
    (d{1,2})[.](d{1,2})[.](20dd), groups returned as (day, month, year). -/
def matchFam2At (l : List Char) : Option (Nat × Nat × Nat) :=
  match numThenSep dotChar l with
  | some (d, rest) =>
    match numThenSep dotChar rest with
    | some (mo, rest2) =>
      match rest2 with
      | '2' :: '0' :: c1 :: c2 :: _ =>
        if c1.isDigit && c2.isDigit then some (d, mo, 2000 + 10 * dv c1 + dv c2) else none
      | _ => none
    | none => none
  | none => none

/-- Family 3 anchored at the current position: (20dd)(dd)(dd). -/
def matchFam3At : List Char → Option (Nat × Nat × Nat)
  | '2' :: '0' :: c1 :: c2 :: m1 :: m2 :: d1 :: d2 :: _ =>
    if c1.isDigit && c2.isDigit && m1.isDigit && m2.isDigit && d1.isDigit && d2.isDigit then
      some (2000 + 10 * dv c1 + dv c2, 10 * dv m1 + dv m2, 10 * dv d1 + dv d2)
    else none
  | _ => none

/-- Leftmost-position search, as re.search performs on these patterns. -/
def searchWith (m : List Char → Option (Nat × Nat × Nat)) : List Char → Option (Nat × Nat × Nat)
  | [] => none
  | c :: cs =>
    match m (c :: cs) with
    | some r => some r
    | none => searchWith m cs

def searchFam1 (l : List Char) : Option (Nat × Nat × Nat) := searchWith matchFam1At l

def searchFam2 (l : List Char) : Option (Nat × Nat × Nat) := searchWith matchFam2At l

def searchFam3 (l : List Char) : Option (Nat × Nat × Nat) := searchWith matchFam3At l

/-- Gregorian leap-year rule used by datetime. -/
def isLeap (y : Nat) : Bool := y % 4 == 0 && (y % 100 != 0 || y % 400 == 0)

def daysInMonth (y mo : Nat) : Nat :=
  if mo == 2 then (if isLeap y then 29 else 28)
  else if mo == 4 || mo == 6 || mo == 9 || mo == 11 then 30
  else 31

/-- Whether datetime(y, mo, d) is constructible (years here are always
    in the 2000s, inside the datetime range). -/
def isValidDate (y mo d : Nat) : Bool :=
  decide (1 ≤ mo) && decide (mo ≤ 12) && decide (1 ≤ d) && decide (d ≤ daysInMonth y mo)

structure CalDate where
  year : Nat
  month : Nat
  day : Nat
deriving DecidableEq, Repr

/-- The ValueError datetime raises on digits that are not a calendar
    date; the spec calls it DateParseError. -/
inductive DateErr
  | invalid
deriving DecidableEq, Repr

/-- Embedding of guess_date_from_filename (src/app.py lines 36-51).
    Each family is tried in order; the first whose regex matches has its
    digits passed to datetime, which yields the date or raises. There is
    no handler in the Python function, so the raise surfaces as an
    Except error here. -/
def guess_date_from_filename (name : String) : Except DateErr (Option CalDate) :=
  match searchFam1 name.data with
  | some (y, mo, d) =>
    if isValidDate y mo d then .ok (some ⟨y, mo, d⟩) else .error .invalid
  | none =>
    match searchFam2 name.data with
    | some (d, mo, y) =>
      if isValidDate y mo d then .ok (some ⟨y, mo, d⟩) else .error .invalid
    | none =>
      match searchFam3 name.data with
      | some (y, mo, d) =>
        if isValidDate y mo d then .ok (some ⟨y, mo, d⟩) else .error .invalid
      | none => .ok none

/-! Sheet normalization: embedding of normalize_table and its inner
    find_col (src/app.py lines 53-96). A parsed sheet is its header row
    plus the data rows, every cell already a string (the Python code
    passes description and unit cells through astype(str), and numeric
    cells only ever reach pd.to_numeric). -/

/-- Value of a list of digit characters read in base 10. -/
def digitsNat (l : List Char) : Nat := l.foldl (fun a c => 10 * a + dv c) 0

/-- Split a leading run of digits from the rest. -/
def splitDigits : List Char → List Char × List Char
  | [] => ([], [])
  | c :: cs =>
    if c.isDigit then
      let p := splitDigits cs
      (c :: p.1, p.2)
    else ([], c :: cs)

/-- A parsed decimal numeral: the digits before and after the point as
    an integer mantissa together with the count of fractional digits,
    so the value is mant over ten to the exp. This is the exact content
    of a decimal cell as pd.to_numeric reads it. -/
structure DecNum where
  mant : Int
  exp : Nat
deriving DecidableEq, Repr

/-- Model of pd.to_numeric(errors="coerce") on one cell: an optionally
    signed decimal literal parses to its value, anything else coerces
    to an absent value (NaN in pandas). -/
def toNumeric (s : String) : Option DecNum :=
  let cs := stripChars s.data
  let signed : Bool × List Char :=
    match cs with
    | '-' :: t => (true, t)
    | '+' :: t => (false, t)
    | t => (false, t)
  let ip := splitDigits signed.2
  let withSign : Nat → Int := fun n => if signed.1 then -(n : Int) else (n : Int)
  match ip.2 with
  | [] => if ip.1.isEmpty then none else some ⟨withSign (digitsNat ip.1), 0⟩
  | '.' :: rest =>
    let fp := splitDigits rest
    if fp.2.isEmpty && !(ip.1.isEmpty && fp.1.isEmpty) then
      some ⟨withSign (digitsNat ip.1 * 10 ^ fp.1.length + digitsNat fp.1), fp.1.length⟩
    else none
  | _ => none

/-- One parsed sheet: the header row and the data rows, as xls.parse
    returns it (shape[0] is the number of data rows). -/
structure SheetTable where
  headers : List String
  rows : List (List String)
deriving DecidableEq, Repr

/-- The exact-phase test of find_col:
    str(c).strip().lower() == o.lower(). -/
def exactHit (o c : String) : Bool := lowerStr (strip c) == lowerStr o

/-- The fuzzy-phase test of find_col: o.lower() in str(c).lower(). -/
def fuzzyHit (o c : String) : Bool := midSeg (lowerStr o).data (lowerStr c).data

/-- Inner loop of find_col: first column satisfying the test. -/
def scanCols (hit : String → String → Bool) (o : String) : List String → Option String
  | [] => none
  | c :: cs => if hit o c then some c else scanCols hit o cs

/-- Outer loop of find_col: candidates in priority order. -/
def scanOpts (hit : String → String → Bool) (cols : List String) : List String → Option String
  | [] => none
  | o :: os =>
    match scanCols hit o cols with
    | some c => some c
    | none => scanOpts hit cols os

/-- Embedding of find_col (src/app.py lines 59-69): a full exact pass
    over all candidates, then a full fuzzy pass. -/
def find_col (cols options : List String) : Option String :=
  match scanOpts exactHit cols options with
  | some c => some c
  | none => scanOpts fuzzyHit cols options

def descOptions : List String := ["Opis", "Naziv", "Stavka", "Opis stavke"]

def unitOptions : List String := ["JM", "J.M.", "Jed mj", "Jed. mjere", "Mjerna jedinica"]

def qtyOptions : List String := ["Količina", "Kol", "Qty"]

def upOptions : List String := ["Jedinična cijena", "Jed. cijena", "Cijena", "Unit price"]

def totOptions : List String := ["Iznos", "Ukupno", "Vrijednost", "Total"]

/-- The reserved header labels of the header-repeat filter (line 94). -/
def headerLabels : List String := ["opis", "stavka", "naziv"]

structure NormalizedRow where
  opis : String
  jm : String
  kolicina : Option DecNum
  jed_cijena : Option DecNum
  iznos : Option DecNum
  source_file : String
  sheet : String
  datum : Option CalDate
deriving DecidableEq, Repr

/-- The column rename of line 56: every header stripped. -/
def stripHeaders (t : SheetTable) : List String := t.headers.map strip

/-- Index of a named column (first column with that name, which is how
    selection by name resolves). -/
def colIdx (hs : List String) (c : Option String) : Option Nat :=
  match c with
  | some name => hs.findIdx? (fun h => h == name)
  | none => none

/-- A string cell of a resolved column, or the empty-string default the
    code assigns when the column is absent. -/
def strCell (r : List String) : Option Nat → String
  | some j => r.getD j ""
  | none => ""

/-- A numeric cell of a resolved column, absent when the column is. -/
def numCell (r : List String) : Option Nat → Option DecNum
  | some j => toNumeric (r.getD j "")
  | none => none

/-- The out dataframe of lines 80-89, before the two filters. -/
def rawRows (t : SheetTable) (cdesc : String) (datum : Option CalDate)
    (source_file sheet : String) : List NormalizedRow :=
  let hs := stripHeaders t
  let jdesc := colIdx hs (some cdesc)
  let junit := colIdx hs (find_col hs unitOptions)
  let jqty := colIdx hs (find_col hs qtyOptions)
  let jup := colIdx hs (find_col hs upOptions)
  let jtot := colIdx hs (find_col hs totOptions)
  t.rows.map (fun r =>
    { opis := strCell r jdesc
      jm := strCell r junit
      kolicina := numCell r jqty
      jed_cijena := numCell r jup
      iznos := numCell r jtot
      source_file := source_file
      sheet := sheet
      datum := datum })

/-- The two row filters of lines 92-94: drop rows whose stripped
    description is empty, then rows whose UNSTRIPPED lowercased
    description equals a reserved header label. -/
def normRows (t : SheetTable) (cdesc : String) (datum : Option CalDate)
    (source_file sheet : String) : List NormalizedRow :=
  ((rawRows t cdesc datum source_file sheet).filter
      (fun r => strip r.opis != "")).filter
    (fun r => !(headerLabels.contains (lowerStr r.opis)))

/-- Embedding of normalize_table (src/app.py lines 53-96). When no
    description column resolves, the function returns an empty frame
    before the datum line runs; otherwise line 89 calls
    guess_date_from_filename, whose ValueError would escape this
    function, modelled by the error branch. -/
def normalize_table (t : SheetTable) (source_file sheet : String) :
    Except DateErr (List NormalizedRow) :=
  match find_col (stripHeaders t) descOptions with
  | none => .ok []
  | some cdesc =>
    match guess_date_from_filename source_file with
    | .error e => .error e
    | .ok datum => .ok (normRows t cdesc datum source_file sheet)

/-! Document and archive level: embedding of read_xlsx_bytes
    (src/app.py lines 98-111) and ingest_zip (lines 113-127). The result
    of pd.ExcelFile on one archive entry is modelled as an Except value:
    ok with the list of sheets when the bytes are a readable workbook,
    error when ExcelFile raises; each sheet's own xls.parse result is an
    Option, none when parse raises inside the per-sheet try. -/

structure Workbook where
  sheets : List (String × Option SheetTable)
deriving DecidableEq, Repr

/-- One iteration of the sheet loop of lines 101-108: the try block
    swallows a parse failure and any error out of normalize_table, and
    the shape[0] < 3 test skips short tables. -/
def sheetRows (filename : String) (s : String × Option SheetTable) : List NormalizedRow :=
  match s.2 with
  | none => []
  | some raw =>
    if raw.rows.length < 3 then []
    else
      match normalize_table raw filename s.1 with
      | .error _ => []
      | .ok rs => rs

/-- Embedding of read_xlsx_bytes: line 99 runs outside any handler, so
    unreadable bytes raise out of the function; otherwise the per-sheet
    frames are concatenated. -/
def read_xlsx_bytes (content : Except Unit Workbook) (filename : String) :
    Except Unit (List NormalizedRow) :=
  match content with
  | .error e => .error e
  | .ok wb => .ok ((wb.sheets.map (sheetRows filename)).flatten)

/-- The failures ingest_zip can surface: BadZipFile from
    zipfile.ZipFile (the ArchiveError of the spec), the ValueError
    pd.ExcelFile raises on a selected entry that is not a readable
    spreadsheet, which nothing in ingest_zip catches, and the KeyError
    at line 122 when the concatenated frame carries no opis column
    because no selected file produced one. -/
inductive PipelineError
  | archiveError
  | spreadsheetError
  | keyError
deriving DecidableEq, Repr

/-- A row of the master dataset: a NormalizedRow with the derived
    search column added by lines 122-125. -/
structure MasterRow where
  row : NormalizedRow
  opis_norm : String
deriving DecidableEq, Repr

/-- Model of re.sub replacing each whitespace run by one space. -/
def collapseWs : List Char → List Char
  | [] => []
  | c :: cs =>
    let rest := collapseWs cs
    if isWs c then
      match rest with
      | ' ' :: _ => rest
      | _ => ' ' :: rest
    else c :: rest

/-- A character the cleanup regex keeps: word characters, whitespace
    and the listed Croatian letters. -/
def keepChar (c : Char) : Bool :=
  c.isAlphanum || c == '_' || isWs c ||
  c == 'č' || c == 'ć' || c == 'đ' || c == 'š' || c == 'ž'

/-- The opis_norm derivation of lines 122-125: lowercase, collapse
    whitespace, drop punctuation. -/
def opisNorm (s : String) : String :=
  ⟨(collapseWs (lowerStr s).data).filter keepChar⟩

/-- The entry filter of line 117: the lowercased name ends in .xlsx and
    the name does not start with the lock-file marker. -/
def entrySelected (name : String) : Bool :=
  trailSeg ".xlsx".data (lowerStr name).data && !(leadSeg "~$".data name.data)

/-- The entry loop of lines 116-118: selected entries are read in
    archive order; an error out of read_xlsx_bytes aborts the loop,
    since the loop body has no handler. -/
def processEntries : List (String × Except Unit Workbook) → Except Unit (List NormalizedRow)
  | [] => .ok []
  | (name, content) :: rest =>
    if entrySelected name then
      match read_xlsx_bytes content name with
      | .error e => .error e
      | .ok rs =>
        match processEntries rest with
        | .error e => .error e
        | .ok acc => .ok (rs ++ acc)
    else processEntries rest

/-- Whether the frame the sheet loop appends for this sheet carries
    the output columns: parse succeeded, at least three rows,
    normalize_table did not raise, and a description column resolved
    (line 78 otherwise returns a bare frame with no columns; note the
    built frame keeps its columns even when the filters leave zero
    rows). -/
def sheetHasCols (fn : String) (s : String × Option SheetTable) : Bool :=
  match s.2 with
  | none => false
  | some raw =>
    if raw.rows.length < 3 then false
    else
      match normalize_table raw fn s.1 with
      | .error _ => false
      | .ok _ => (find_col (stripHeaders raw) descOptions).isSome

/-- Whether the frame read_xlsx_bytes returns for this file carries
    the opis column: pd.concat takes the union of the columns of the
    appended frames, so the file frame is columned exactly when some
    sheet frame is (and the bare pd.DataFrame of the no-frames case is
    the all-sheets-bare case of the same condition). -/
def fileHasCols (fn : String) (wb : Workbook) : Bool :=
  wb.sheets.any (fun s => sheetHasCols fn s)

/-- Whether one archive entry contributes a columned frame. An entry
    with unreadable bytes never reaches the concat line, so the value
    returned for it is never consulted. -/
def entryHasCols (e : String × Except Unit Workbook) : Bool :=
  match e.2 with
  | .error _ => false
  | .ok wb => fileHasCols e.1 wb

/-- Embedding of ingest_zip: a bad container raises BadZipFile at line
    114; otherwise the selected entries are read in order (line 118
    aborting on an unreadable one) and concatenated. With no selected
    entry, line 127 returns a bare empty frame; otherwise line 122
    reads the opis column of the concatenation, raising KeyError when
    no selected file produced that column, and the opis_norm column is
    added. -/
def ingest_zip (input : Except Unit (List (String × Except Unit Workbook))) :
    Except PipelineError (List MasterRow) :=
  match input with
  | .error _ => .error .archiveError
  | .ok entries =>
    match processEntries entries with
    | .error _ => .error .spreadsheetError
    | .ok rows =>
      let sel := entries.filter (fun e => entrySelected e.1)
      if sel.isEmpty then .ok []
      else if sel.any entryHasCols then .ok (rows.map (fun r => ⟨r, opisNorm r.opis⟩))
      else .error .keyError

/-! Definitions written from the words of the spec, for comparison with
    the embedded code. -/

/-- Written from the spec (section 4.2 step 2 and the design notes):
    scan the candidate labels in priority order for a case-insensitive
    exact match against the trimmed headers; only if no candidate
    matches exactly anywhere, fall back to case-insensitive substring
    matching in the same candidate order, taking the first matching
    column in sheet order. -/
def findColSpec (cols options : List String) : Option String :=
  match options.findSome? (fun o => cols.find? (fun c => exactHit o c)) with
  | some c => some c
  | none => options.findSome? (fun o => cols.find? (fun c => fuzzyHit o c))

/-- The family whose regex is reached first by the priority order of
    guess_date_from_filename, with its captured digits arranged as
    (year, month, day). -/
def firstFamilyHit (s : String) : Option (Nat × Nat × Nat) :=
  match searchFam1 s.data with
  | some r => some r
  | none =>
    match searchFam2 s.data with
    | some (d, mo, y) => some (y, mo, d)
    | none => searchFam3 s.data

instance {ε α : Type} [DecidableEq ε] [DecidableEq α] : DecidableEq (Except ε α) := fun x y =>
  match x, y with
  | .error a, .error b =>
    if h : a = b then .isTrue (by rw [h]) else .isFalse (fun hc => h (Except.error.inj hc))
  | .error _, .ok _ => .isFalse (fun hc => Except.noConfusion hc)
  | .ok _, .error _ => .isFalse (fun hc => Except.noConfusion hc)
  | .ok a, .ok b =>
    if h : a = b then .isTrue (by rw [h]) else .isFalse (fun hc => h (Except.ok.inj hc))

/-! Concrete fixtures used by the claim scenarios. -/

/-- A well-formed three-row table with a description and a total
    column. -/
def goodTab : SheetTable :=
  ⟨["Opis", "Iznos"], [["a", "1"], ["b", "2"], ["c", "3"]]⟩

/-- A workbook holding only goodTab. -/
def wbOne : Workbook := ⟨[("L", some goodTab)]⟩

/-- The sheet of the spec scenario behind claim C6: header row, one
    data row, one repeated header row. -/
def c6sheet : SheetTable :=
  ⟨["Naziv", "J.M.", "Kol", "Cijena", "Ukupno"],
   [["Beton", "m3", "2", "100", "200"],
    ["Naziv", "J.M.", "Kol", "Cijena", "Ukupno"]]⟩

/-- The single row normalize_table extracts from c6sheet. -/
def c6row : NormalizedRow :=
  ⟨"Beton", "m3", some ⟨2, 0⟩, some ⟨100, 0⟩, some ⟨200, 0⟩, "doc.xlsx", "List1", none⟩

/-- A table whose second data row is a reserved label wrapped in
    spaces. -/
def c4tab : SheetTable :=
  ⟨["Opis"], [["beton mix"], [" naziv "], ["pijesak"]]⟩

/-- A one-row table used to instantiate the C4 invariant. -/
def c4wtab : SheetTable := ⟨["Opis"], [["x"]]⟩

def c4wrow : NormalizedRow := ⟨"x", "", none, none, none, "a.xlsx", "S", none⟩

/-- A table with no description-like header. -/
def c5tab : SheetTable := ⟨["Šifra", "Vrsta"], [["1", "a"], ["2", "b"], ["3", "c"]]⟩

/-- A two-row table, below the three-row minimum. -/
def c7tab : SheetTable := ⟨["Naziv", "Kol"], [["x", "1"], ["y", "2"]]⟩

/-! Helper lemmas shared by several claims. -/

/-- When the first family reached by the priority order captures digits
    that are not a calendar date, guess_date_from_filename raises. -/
lemma guess_err_of_hit_invalid (s : String) (y mo d : Nat)
    (hhit : firstFamilyHit s = some (y, mo, d)) (hbad : isValidDate y mo d = false) :
    guess_date_from_filename s = .error DateErr.invalid := by
  unfold firstFamilyHit at hhit
  cases h1 : searchFam1 s.data with
  | some r =>
    obtain ⟨y1, mo1, d1⟩ := r
    rw [h1] at hhit
    simp only [Option.some.injEq, Prod.mk.injEq] at hhit
    obtain ⟨hy, hm, hd⟩ := hhit
    subst hy; subst hm; subst hd
    simp only [guess_date_from_filename, h1, hbad]
    simp
  | none =>
    rw [h1] at hhit
    cases h2 : searchFam2 s.data with
    | some r =>
      obtain ⟨d2, mo2, y2⟩ := r
      rw [h2] at hhit
      simp only [Option.some.injEq, Prod.mk.injEq] at hhit
      obtain ⟨hy, hm, hd⟩ := hhit
      subst hy; subst hm; subst hd
      simp only [guess_date_from_filename, h1, h2, hbad]
      simp
    | none =>
      rw [h2] at hhit
      cases h3 : searchFam3 s.data with
      | some r =>
        obtain ⟨y3, mo3, d3⟩ := r
        rw [h3] at hhit
        simp only [Option.some.injEq, Prod.mk.injEq] at hhit
        obtain ⟨hy, hm, hd⟩ := hhit
        subst hy; subst hm; subst hd
        simp only [guess_date_from_filename, h1, h2, h3, hbad]
        simp
      | none => rw [h3] at hhit; cases hhit

/-! Claim C2. -/

/-- C2 counterexample: the filename trosak_2025-13-01.xlsx matches
    family 1 with month 13; the Inferencer does not return an absent
    date but raises the invalid-date error to its caller, refuting the
    claim that the error is caught internally. -/
theorem C2_counterexample :
    guess_date_from_filename "trosak_2025-13-01.xlsx" = .error DateErr.invalid ∧
    guess_date_from_filename "trosak_2025-13-01.xlsx" ≠ .ok none := by
  decide

/-- C2 amended: for every filename in which the priority-first matching
    family captures digits that do not form a valid calendar date, the
    Inferencer raises the invalid-date error to its caller instead of
    returning an absent date; the error is only absorbed one level up,
    by the per-sheet handler of read_xlsx_bytes. -/
theorem C2_amended (s : String) (y mo d : Nat)
    (hhit : firstFamilyHit s = some (y, mo, d)) (hbad : isValidDate y mo d = false) :
    guess_date_from_filename s = .error DateErr.invalid :=
  guess_err_of_hit_invalid s y mo d hhit hbad

/-- C2 witness: day 31 of February 2024 is captured by family 2 in
    izvj_31.02.2024.xlsx and makes the Inferencer raise. -/
theorem C2_witness :
    firstFamilyHit "izvj_31.02.2024.xlsx" = some (2024, 2, 31) ∧
    isValidDate 2024 2 31 = false ∧
    guess_date_from_filename "izvj_31.02.2024.xlsx" = .error DateErr.invalid :=
  ⟨by decide, by decide,
    C2_amended "izvj_31.02.2024.xlsx" 2024 2 31 (by decide) (by decide)⟩

/-! Claim C3. -/

/-- C3 counterexample: the filename 20250119_trosak.xlsx is NOT matched
    by family 1 (its regex demands a separator between the groups); the
    date is produced by family 3, refuting the resolving-via-family-1
    part of the claim. -/
theorem C3_counterexample :
    searchFam1 "20250119_trosak.xlsx".data = none ∧
    searchFam3 "20250119_trosak.xlsx".data = some (2025, 1, 19) ∧
    guess_date_from_filename "20250119_trosak.xlsx" = .ok (some ⟨2025, 1, 19⟩) := by
  decide

/-- C3 amended: for every filename whose priority-first matching family
    captures a valid calendar date, the Inferencer returns exactly that
    date, the families being tried in the fixed order 1, 2, 3; a
    filename matching no family yields an absent date. The scenario
    filenames all evaluate as the spec states, except that
    20250119_trosak.xlsx resolves via family 3, not family 1, because
    the family 1 regex requires separators. -/
theorem C3_amended :
    (∀ (s : String) (y mo d : Nat), searchFam1 s.data = some (y, mo, d) →
      isValidDate y mo d = true →
      guess_date_from_filename s = .ok (some ⟨y, mo, d⟩)) ∧
    (∀ (s : String) (d mo y : Nat), searchFam1 s.data = none →
      searchFam2 s.data = some (d, mo, y) → isValidDate y mo d = true →
      guess_date_from_filename s = .ok (some ⟨y, mo, d⟩)) ∧
    (∀ (s : String) (y mo d : Nat), searchFam1 s.data = none →
      searchFam2 s.data = none → searchFam3 s.data = some (y, mo, d) →
      isValidDate y mo d = true →
      guess_date_from_filename s = .ok (some ⟨y, mo, d⟩)) ∧
    (∀ (s : String), searchFam1 s.data = none → searchFam2 s.data = none →
      searchFam3 s.data = none → guess_date_from_filename s = .ok none) ∧
    guess_date_from_filename "trosak_2025-01-19.xlsx" = .ok (some ⟨2025, 1, 19⟩) ∧
    guess_date_from_filename "trosak_19.01.2025.xlsx" = .ok (some ⟨2025, 1, 19⟩) ∧
    guess_date_from_filename "20250119_trosak.xlsx" = .ok (some ⟨2025, 1, 19⟩) ∧
    guess_date_from_filename "trosak_final.xlsx" = .ok none := by
  refine ⟨?_, ?_, ?_, ?_, by decide, by decide, by decide, by decide⟩
  · intro s y mo d h1 hval
    simp only [guess_date_from_filename, h1, hval]
    simp
  · intro s d mo y h1 h2 hval
    simp only [guess_date_from_filename, h1, h2, hval]
    simp
  · intro s y mo d h1 h2 h3 hval
    simp only [guess_date_from_filename, h1, h2, h3, hval]
    simp
  · intro s h1 h2 h3
    simp only [guess_date_from_filename, h1, h2, h3]

/-- C3 witness: each conjunct of the amended claim instantiated at one
    scenario filename. -/
theorem C3_witness :
    (searchFam1 "trosak_2025-01-19.xlsx".data = some (2025, 1, 19) ∧
      guess_date_from_filename "trosak_2025-01-19.xlsx" = .ok (some ⟨2025, 1, 19⟩)) ∧
    (searchFam1 "trosak_19.01.2025.xlsx".data = none ∧
      searchFam2 "trosak_19.01.2025.xlsx".data = some (19, 1, 2025) ∧
      guess_date_from_filename "trosak_19.01.2025.xlsx" = .ok (some ⟨2025, 1, 19⟩)) ∧
    (searchFam1 "trosak_final.xlsx".data = none ∧
      searchFam2 "trosak_final.xlsx".data = none ∧
      searchFam3 "trosak_final.xlsx".data = none ∧
      guess_date_from_filename "trosak_final.xlsx" = .ok none) :=
  ⟨⟨by decide, C3_amended.1 "trosak_2025-01-19.xlsx" 2025 1 19 (by decide) (by decide)⟩,
   ⟨by decide, by decide,
     C3_amended.2.1 "trosak_19.01.2025.xlsx" 19 1 2025 (by decide) (by decide) (by decide)⟩,
   ⟨by decide, by decide, by decide,
     C3_amended.2.2.2.1 "trosak_final.xlsx" (by decide) (by decide) (by decide)⟩⟩

/-! Claim C4. -/

/-- C4 counterexample: a data row whose description is the reserved
    label naziv wrapped in spaces survives both filters, because line 94
    lowercases the description without stripping it first; its trimmed
    value is case-insensitively a reserved header label, refuting the
    claim for rows with surrounding whitespace. -/
theorem C4_counterexample :
    normalize_table c4tab "cjenik.xlsx" "S1" = .ok
      [⟨"beton mix", "", none, none, none, "cjenik.xlsx", "S1", none⟩,
       ⟨" naziv ", "", none, none, none, "cjenik.xlsx", "S1", none⟩,
       ⟨"pijesak", "", none, none, none, "cjenik.xlsx", "S1", none⟩] ∧
    lowerStr (strip " naziv ") = "naziv" := by
  decide

/-- C4 amended: every NormalizedRow produced by normalization has a
    description that is non-empty after trimming and whose UNTRIMMED
    lowercased value is none of the reserved header labels; a row whose
    description is a reserved label with surrounding whitespace is
    retained, not excluded. -/
theorem C4_amended (t : SheetTable) (f sh : String) (rows : List NormalizedRow)
    (r : NormalizedRow) (hok : normalize_table t f sh = .ok rows) (hr : r ∈ rows) :
    strip r.opis ≠ "" ∧ lowerStr r.opis ∉ headerLabels := by
  unfold normalize_table at hok
  cases hf : find_col (stripHeaders t) descOptions with
  | none =>
    simp only [hf] at hok
    injection hok with h
    subst h
    exact absurd hr (List.not_mem_nil r)
  | some cdesc =>
    simp only [hf] at hok
    cases hg : guess_date_from_filename f with
    | error e => simp only [hg] at hok; exact Except.noConfusion hok
    | ok datum =>
      simp only [hg, Except.ok.injEq] at hok
      subst hok
      unfold normRows at hr
      have h1 := List.mem_filter.mp hr
      have h2 := List.mem_filter.mp h1.1
      refine ⟨?_, ?_⟩
      · simpa using h2.2
      · simpa using h1.2

/-- C4 witness: the amended invariant instantiated on a one-row
    table. -/
theorem C4_witness :
    normalize_table c4wtab "a.xlsx" "S" = .ok [c4wrow] ∧
    (strip c4wrow.opis ≠ "" ∧ lowerStr c4wrow.opis ∉ headerLabels) :=
  ⟨by decide, C4_amended c4wtab "a.xlsx" "S" [c4wrow] c4wrow (by decide) (by simp)⟩

/-! Claim C5. -/

/-- The inner column loop is the first column in sheet order satisfying
    the test. -/
lemma scanCols_eq_find (hit : String → String → Bool) (o : String) (cols : List String) :
    scanCols hit o cols = cols.find? (fun c => hit o c) := by
  induction cols with
  | nil => rfl
  | cons c cs ih =>
    by_cases h : hit o c
    · simp [scanCols, h]
    · simp [scanCols, h, ih]

/-- The outer candidate loop is the first candidate for which some
    column matches. -/
lemma scanOpts_eq_findSome (hit : String → String → Bool) (cols options : List String) :
    scanOpts hit cols options =
      options.findSome? (fun o => cols.find? (fun c => hit o c)) := by
  induction options with
  | nil => rfl
  | cons o os ih =>
    simp only [scanOpts, scanCols_eq_find, ih, List.findSome?_cons]
    cases List.find? (fun c => hit o c) cols with
    | none => rfl
    | some c => rfl

/-- C5: the code's column resolution equals the resolution the spec
    describes, for every header list and every candidate list: a full
    exact pass over the candidates in priority order against the
    trimmed headers, then, only if no candidate matched exactly
    anywhere, a substring pass in the same candidate order, ties among
    columns broken by first column in sheet order; and a sheet with no
    resolvable description column yields zero rows. -/
theorem C5_two_phase :
    (∀ (cols options : List String), find_col cols options = findColSpec cols options) ∧
    (∀ (t : SheetTable) (f sh : String),
      find_col (stripHeaders t) descOptions = none → normalize_table t f sh = .ok []) := by
  constructor
  · intro cols options
    unfold find_col findColSpec
    rw [scanOpts_eq_findSome, scanOpts_eq_findSome]
  · intro t f sh h
    simp [normalize_table, h]

/-- C5 witness: a sheet whose headers carry no description-like label
    resolves no description column and yields zero rows. -/
theorem C5_witness :
    find_col (stripHeaders c5tab) descOptions = none ∧
    normalize_table c5tab "t.xlsx" "S" = .ok [] :=
  ⟨by decide, C5_two_phase.2 c5tab "t.xlsx" "S" (by decide)⟩

/-! Claim C6. -/

/-- C6 counterexample: the scenario sheet has only two data rows, so
    the document pipeline skips it by the three-row minimum and the
    document yields zero rows, not one. -/
theorem C6_counterexample :
    c6sheet.rows.length = 2 ∧
    read_xlsx_bytes (.ok ⟨[("List1", some c6sheet)]⟩) "doc.xlsx" = .ok [] := by
  constructor
  · rfl
  · decide

/-- C6 amended: normalize_table itself extracts exactly one row from
    the scenario sheet, dropping the repeated header row, with jm m3,
    kolicina 2, jed_cijena 100, iznos 200; run through read_xlsx_bytes
    the same sheet is skipped by the three-row minimum. -/
theorem C6_amended :
    normalize_table c6sheet "doc.xlsx" "List1" = .ok [c6row] := by
  rfl

/-! Claims about the document pipeline: C7, C8, C10. -/

/-- A list of empty lists flattens to the empty list. -/
lemma flatten_all_nil {α : Type} (L : List (List α)) (h : ∀ x ∈ L, x = []) :
    L.flatten = [] := by
  induction L with
  | nil => rfl
  | cons a as ih =>
    rw [List.flatten_cons, h a (List.mem_cons_self a as),
      ih (fun x hx => h x (List.mem_cons_of_mem a hx))]
    rfl

/-- The sheet loop body raised: either xls.parse failed, or
    normalize_table raised. -/
def sheetFails (fn : String) (s : String × Option SheetTable) : Prop :=
  s.2 = none ∨ ∃ t, s.2 = some t ∧ ∃ e, normalize_table t fn s.1 = .error e

/-- A sheet whose processing raises contributes no rows. -/
lemma sheetRows_eq_nil_of_err (fn : String) (s : String × Option SheetTable)
    (hfail : sheetFails fn s) : sheetRows fn s = [] := by
  obtain ⟨name, ts⟩ := s
  cases ts with
  | none => rfl
  | some t =>
    rcases hfail with h | ⟨t2, ht2, e, he⟩
    · exact Option.noConfusion h
    · injection ht2 with ht2
      subst ht2
      unfold sheetRows
      by_cases hlen : t.rows.length < 3
      · simp [hlen]
      · simp only at he
        simp [hlen, he]

/-- C7: a sheet whose parsed table has fewer than three rows
    contributes zero rows, and removing it from the document leaves the
    document output unchanged. -/
theorem C7_min_rows (fname sname : String) (t : SheetTable)
    (pre post : List (String × Option SheetTable)) (hlen : t.rows.length < 3) :
    sheetRows fname (sname, some t) = [] ∧
    read_xlsx_bytes (.ok ⟨pre ++ (sname, some t) :: post⟩) fname =
      read_xlsx_bytes (.ok ⟨pre ++ post⟩) fname := by
  have hnil : sheetRows fname (sname, some t) = [] := by
    unfold sheetRows
    simp [hlen]
  refine ⟨hnil, ?_⟩
  simp [read_xlsx_bytes, List.map_append, List.flatten_append, hnil]

/-- C7 witness: a two-row sheet is skipped entirely. -/
theorem C7_witness :
    c7tab.rows.length < 3 ∧
    (sheetRows "doc.xlsx" ("B", some c7tab) = [] ∧
     read_xlsx_bytes (.ok ⟨[("A", some goodTab), ("B", some c7tab)]⟩) "doc.xlsx" =
       read_xlsx_bytes (.ok ⟨[("A", some goodTab)]⟩) "doc.xlsx") :=
  ⟨by decide, C7_min_rows "doc.xlsx" "B" c7tab [("A", some goodTab)] [] (by decide)⟩

/-- A sheet whose processing raises contributes no columned frame
    either. -/
lemma sheetHasCols_eq_false_of_err (fn : String) (s : String × Option SheetTable)
    (hfail : sheetFails fn s) : sheetHasCols fn s = false := by
  obtain ⟨name, ts⟩ := s
  cases ts with
  | none => rfl
  | some t =>
    rcases hfail with h | ⟨t2, ht2, e, he⟩
    · exact Option.noConfusion h
    · injection ht2 with ht2
      subst ht2
      unfold sheetHasCols
      by_cases hlen : t.rows.length < 3
      · simp [hlen]
      · simp only at he
        simp [hlen, he]

/-- Replacing one entry of the loop by another with the same name and
    the same read result leaves the loop result unchanged. -/
lemma processEntries_congr (name : String) (c1 c2 : Except Unit Workbook)
    (hread : read_xlsx_bytes c1 name = read_xlsx_bytes c2 name) :
    ∀ (epre epost : List (String × Except Unit Workbook)),
      processEntries (epre ++ (name, c1) :: epost) =
        processEntries (epre ++ (name, c2) :: epost) := by
  intro epre epost
  induction epre with
  | nil =>
    by_cases hsel : entrySelected name = true
    · simp [processEntries, hsel, hread]
    · simp [processEntries, hsel]
  | cons e rest ih =>
    obtain ⟨n, c⟩ := e
    by_cases hs : entrySelected n = true
    · simp [processEntries, hs, List.cons_append, ih]
    · simp [processEntries, hs, List.cons_append, ih]

/-- Replacing one workbook of an archive by another with the same read
    result and the same column presence leaves the invocation result
    unchanged. -/
lemma ingest_congr (epre epost : List (String × Except Unit Workbook)) (name : String)
    (wb1 wb2 : Workbook)
    (hread : read_xlsx_bytes (.ok wb1) name = read_xlsx_bytes (.ok wb2) name)
    (hcols : fileHasCols name wb1 = fileHasCols name wb2) :
    ingest_zip (.ok (epre ++ (name, .ok wb1) :: epost)) =
      ingest_zip (.ok (epre ++ (name, .ok wb2) :: epost)) := by
  have hpe := processEntries_congr name (.ok wb1) (.ok wb2) hread epre epost
  simp only [ingest_zip]
  rw [hpe]
  cases hp : processEntries (epre ++ (name, Except.ok wb2) :: epost) with
  | error e => rfl
  | ok rows =>
    dsimp only
    by_cases hsel : entrySelected name = true
    · have hfil : ∀ (c : Except Unit Workbook),
          List.filter (fun e => entrySelected e.1) (epre ++ (name, c) :: epost) =
            List.filter (fun e => entrySelected e.1) epre ++
              (name, c) :: List.filter (fun e => entrySelected e.1) epost := by
        intro c
        simp [List.filter_append, List.filter_cons, hsel]
      rw [hfil, hfil]
      have hany :
          (List.filter (fun e => entrySelected e.1) epre ++
              (name, Except.ok wb1) :: List.filter (fun e => entrySelected e.1) epost).any
            entryHasCols =
          (List.filter (fun e => entrySelected e.1) epre ++
              (name, Except.ok wb2) :: List.filter (fun e => entrySelected e.1) epost).any
            entryHasCols := by
        simp only [List.any_append, List.any_cons, entryHasCols, hcols]
      have hne1 : ¬((List.filter (fun e => entrySelected e.1) epre ++
          (name, Except.ok wb1) ::
            List.filter (fun e => entrySelected e.1) epost).isEmpty = true) := by
        simp
      have hne2 : ¬((List.filter (fun e => entrySelected e.1) epre ++
          (name, Except.ok wb2) ::
            List.filter (fun e => entrySelected e.1) epost).isEmpty = true) := by
        simp
      rw [if_neg hne1, if_neg hne2, hany]
    · have hfil : ∀ (c : Except Unit Workbook),
          List.filter (fun e => entrySelected e.1) (epre ++ (name, c) :: epost) =
            List.filter (fun e => entrySelected e.1) epre ++
              List.filter (fun e => entrySelected e.1) epost := by
        intro c
        simp [List.filter_append, List.filter_cons, hsel]
      rw [hfil, hfil]

/-- C8: a readable document never fails, its output being the
    concatenation of the per-sheet row sets; a sheet whose parsing or
    normalization raises only loses its own rows, the document behaving
    as if that sheet were absent; and at the invocation level the whole
    archive result is unchanged when such a sheet is dropped from its
    document, so the failing sheet never causes a document-level or
    invocation-level failure (any failure the invocation shows, such as
    the no-recognized-columns KeyError, occurs identically without the
    failing sheet). -/
theorem C8_error_boundary :
    (∀ (fn : String) (wb : Workbook),
      read_xlsx_bytes (.ok wb) fn = .ok ((wb.sheets.map (sheetRows fn)).flatten)) ∧
    (∀ (fn : String) (pre post : List (String × Option SheetTable))
        (s : String × Option SheetTable), sheetFails fn s →
      read_xlsx_bytes (.ok ⟨pre ++ s :: post⟩) fn =
        read_xlsx_bytes (.ok ⟨pre ++ post⟩) fn) ∧
    (∀ (epre epost : List (String × Except Unit Workbook)) (name : String)
        (pre post : List (String × Option SheetTable))
        (s : String × Option SheetTable), sheetFails name s →
      ingest_zip (.ok (epre ++ (name, .ok ⟨pre ++ s :: post⟩) :: epost)) =
        ingest_zip (.ok (epre ++ (name, .ok ⟨pre ++ post⟩) :: epost))) := by
  refine ⟨fun fn wb => rfl, ?_, ?_⟩
  · intro fn pre post s hs
    have hnil := sheetRows_eq_nil_of_err fn s hs
    simp [read_xlsx_bytes, List.map_append, List.flatten_append, hnil]
  · intro epre epost name pre post s hfail
    apply ingest_congr
    · have hnil := sheetRows_eq_nil_of_err name s hfail
      simp [read_xlsx_bytes, List.map_append, List.flatten_append, hnil]
    · have hzero := sheetHasCols_eq_false_of_err name s hfail
      simp [fileHasCols, List.any_append, List.any_cons, hzero]

/-- C8 witness: a document whose first sheet fails to parse behaves as
    if that sheet were absent, at the document and at the invocation
    level. -/
theorem C8_witness :
    sheetFails "doc.xlsx" ("Bad", none) ∧
    read_xlsx_bytes (.ok ⟨[("Bad", none), ("L", some goodTab)]⟩) "doc.xlsx" =
      read_xlsx_bytes (.ok ⟨[("L", some goodTab)]⟩) "doc.xlsx" ∧
    ingest_zip (.ok [("doc.xlsx", .ok ⟨[("Bad", none), ("L", some goodTab)]⟩)]) =
      ingest_zip (.ok [("doc.xlsx", .ok ⟨[("L", some goodTab)]⟩)]) :=
  ⟨Or.inl rfl,
    C8_error_boundary.2.1 "doc.xlsx" [] [("L", some goodTab)] ("Bad", none) (Or.inl rfl),
    C8_error_boundary.2.2 [] [] "doc.xlsx" [] [("L", some goodTab)] ("Bad", none)
      (Or.inl rfl)⟩

/-- C10: when the filename carries pattern digits that are not a valid
    calendar date, the date-construction error raised at the datum line
    is absorbed by the per-sheet boundary of read_xlsx_bytes, which
    discards each sheet whole: the document yields zero rows, never rows
    with an absent date. -/
theorem C10_invalid_date_drops_sheets (fname : String) (y mo d : Nat) (wb : Workbook)
    (hhit : firstFamilyHit fname = some (y, mo, d)) (hbad : isValidDate y mo d = false) :
    read_xlsx_bytes (.ok wb) fname = .ok [] := by
  have hg := guess_err_of_hit_invalid fname y mo d hhit hbad
  have hall : ∀ s ∈ wb.sheets, sheetRows fname s = [] := by
    intro s _
    obtain ⟨name, ts⟩ := s
    cases ts with
    | none => rfl
    | some t =>
      unfold sheetRows
      by_cases hlen : t.rows.length < 3
      · simp [hlen]
      · cases hf : find_col (stripHeaders t) descOptions with
        | none => simp [hlen, normalize_table, hf]
        | some cdesc => simp [hlen, normalize_table, hf, hg]
  have hflat : (wb.sheets.map (sheetRows fname)).flatten = [] := by
    apply flatten_all_nil
    intro x hx
    obtain ⟨s, hs, rfl⟩ := List.mem_map.mp hx
    exact hall s hs
  simp [read_xlsx_bytes, hflat]

/-- C10 witness: a document with a well-formed sheet still yields zero
    rows under the filename trosak_2025-13-01.xlsx, whose family-1
    digits name month 13. -/
theorem C10_witness :
    firstFamilyHit "trosak_2025-13-01.xlsx" = some (2025, 13, 1) ∧
    isValidDate 2025 13 1 = false ∧
    read_xlsx_bytes (.ok wbOne) "trosak_2025-13-01.xlsx" = .ok [] :=
  ⟨by decide, by decide,
    C10_invalid_date_drops_sheets "trosak_2025-13-01.xlsx" 2025 13 1 wbOne
      (by decide) (by decide)⟩

/-! Claims about the archive level: C9 and C1. -/

/-- C9: the entry loop processes exactly the entries whose lowercased
    name ends in .xlsx and whose name does not start with the lock-file
    marker, in archive order: the loop result equals the result on the
    pre-filtered entry list; the lock file of the scenario is excluded
    even though its content would abort the run if read, and the real
    file alone determines the output. -/
theorem C9_entry_filter :
    (∀ (entries : List (String × Except Unit Workbook)),
      processEntries entries =
        processEntries (entries.filter (fun e => entrySelected e.1))) ∧
    entrySelected "~$trosak.xlsx" = false ∧
    entrySelected "trosak.xlsx" = true ∧
    entrySelected "TROSAK.XLSX" = true ∧
    entrySelected "trosak.xls" = false ∧
    ingest_zip (.ok [("~$trosak.xlsx", Except.error ()), ("trosak.xlsx", .ok wbOne)]) =
      ingest_zip (.ok [("trosak.xlsx", .ok wbOne)]) := by
  refine ⟨?_, by decide, by decide, by decide, by decide, by decide⟩
  intro entries
  induction entries with
  | nil => rfl
  | cons e rest ih =>
    obtain ⟨name, content⟩ := e
    by_cases hsel : entrySelected name = true
    · simp [processEntries, List.filter_cons, hsel, ih]
    · simp [processEntries, List.filter_cons, hsel, ih]

/-- The entry loop aborts with the reading error when it reaches a
    selected entry whose bytes are unreadable, provided the selected
    entries before it were readable. -/
lemma processEntries_err_of_bad (name : String)
    (post : List (String × Except Unit Workbook)) :
    ∀ (pre : List (String × Except Unit Workbook)),
      (∀ e ∈ pre, entrySelected e.1 = true → ∃ wb, e.2 = .ok wb) →
      entrySelected name = true →
      processEntries (pre ++ (name, Except.error ()) :: post) = .error () := by
  intro pre
  induction pre with
  | nil =>
    intro _ hsel
    simp [processEntries, hsel, read_xlsx_bytes]
  | cons e rest ih =>
    intro h hsel
    obtain ⟨n, c⟩ := e
    have hre := ih (fun x hx hsx => h x (by simp [hx]) hsx) hsel
    by_cases hs : entrySelected n = true
    · obtain ⟨wb, hwb⟩ := h (n, c) (by simp) hs
      simp only at hwb
      subst hwb
      simp [processEntries, hs, read_xlsx_bytes, hre, List.cons_append]
    · simp [processEntries, hs, hre, List.cons_append]

/-- C1 counterexample: an archive entry named like a spreadsheet whose
    bytes are unreadable makes the whole invocation fail, with an error
    that is not the ArchiveError, even though another entry carrying
    rows follows it; this refutes the claim that such an entry degrades
    to an empty result. -/
theorem C1_counterexample :
    ingest_zip (.ok [("bad.xlsx", Except.error ()), ("dobro.xlsx", .ok wbOne)]) =
      .error PipelineError.spreadsheetError ∧
    PipelineError.spreadsheetError ≠ PipelineError.archiveError := by
  decide

/-- C1 amended: an entry that passes the extension filter but whose
    bytes are not a readable spreadsheet aborts the invocation with the
    reading error, the entries after it unprocessed, so the failures a
    caller can see are the ArchiveError, this per-file reading error,
    and the zero-total-rows condition; an unreadable entry does NOT
    degrade to an empty per-file result. -/
theorem C1_amended :
    (∀ (pre post : List (String × Except Unit Workbook)) (name : String),
      entrySelected name = true →
      (∀ e ∈ pre, entrySelected e.1 = true → ∃ wb, e.2 = .ok wb) →
      ingest_zip (.ok (pre ++ (name, Except.error ()) :: post)) =
        .error PipelineError.spreadsheetError) ∧
    ingest_zip (Except.error ()) = .error PipelineError.archiveError := by
  refine ⟨?_, rfl⟩
  intro pre post name hsel h
  have hp := processEntries_err_of_bad name post pre h hsel
  simp [ingest_zip, hp]

/-- C1 witness: a readable entry followed by an unreadable one ends in
    the invocation-level reading failure. -/
theorem C1_witness :
    entrySelected "los.xlsx" = true ∧
    ingest_zip (.ok [("dobro.xlsx", Except.ok wbOne), ("los.xlsx", Except.error ())]) =
      .error PipelineError.spreadsheetError := by
  refine ⟨by decide, ?_⟩
  refine C1_amended.1 [("dobro.xlsx", Except.ok wbOne)] [] "los.xlsx" (by decide) ?_
  intro e he _
  simp only [List.mem_singleton] at he
  subst he
  exact ⟨wbOne, rfl⟩

end CentralnaBaza
